import Mathlib

/-!
Shallow embedding of the sheetsORM `GoogleDB` class (src/index.ts) and proofs
about its schema binding, row codec, query matcher and CRUD operations.

The remote sheet is modelled as a list of rows of cell strings whose row 0 is
the header row.  JavaScript runtime values are modelled by `JSValue`, the
ECMAScript string-to-number coercion by `jsStrToNumber` (exact rationals stand
in for IEEE doubles, which agree on the small literals exercised here), and
each method of the class by a pure function returning `Except`, an error being
a thrown exception; a write request appears only in a successful result, which
mirrors the program order of the source, where every `throw` precedes the
remote call.
-/

deriving instance DecidableEq for Except

namespace SheetsORM

/-- Result of the ECMAScript string-to-number coercion: NaN, a signed
infinity, or a finite value (an exact rational; IEEE rounding not modelled). -/
inductive JSNum where
  | nan : JSNum
  | inf : Bool → JSNum
  | val : ℚ → JSNum
  deriving DecidableEq, Repr

/-- A JavaScript runtime value as it occurs in this program: cell strings,
numbers, booleans, and `undefined` (absent properties and array holes). -/
inductive JSValue where
  | str : String → JSValue
  | num : JSNum → JSValue
  | boolean : Bool → JSValue
  | undefined : JSValue
  deriving DecidableEq, Repr

/-- JavaScript `typeof`, restricted to the values of this model. -/
def typeofJS : JSValue → String
  | .str _ => "string"
  | .num _ => "number"
  | .boolean _ => "boolean"
  | .undefined => "undefined"

/-- JavaScript strict equality: equal only within one type, `NaN` unequal to
everything including itself, `undefined` equal to `undefined`. -/
def jsStrictEq : JSValue → JSValue → Bool
  | .str a, .str b => a == b
  | .num JSNum.nan, .num _ => false
  | .num _, .num JSNum.nan => false
  | .num a, .num b => decide (a = b)
  | .boolean a, .boolean b => a == b
  | .undefined, .undefined => true
  | _, _ => false

/-- The whitespace and line-terminator characters stripped by the ECMAScript
string-to-number coercion (the ASCII ones plus NBSP, BOM and the Unicode line
separators; more exotic Zs spaces are outside the modelled fragment). -/
def isJsWhitespace (c : Char) : Bool :=
  c = ' ' || c = '\t' || c = '\n' || c = '\r' ||
  c.toNat = 11 || c.toNat = 12 || c.toNat = 160 || c.toNat = 65279 ||
  c.toNat = 8232 || c.toNat = 8233

/-- The character list of a string with surrounding whitespace stripped. -/
def jsTrimmed (s : String) : List Char :=
  ((s.toList.dropWhile isJsWhitespace).reverse.dropWhile isJsWhitespace).reverse

/-- Value of a list of decimal digits. -/
def digitsVal (cs : List Char) : ℕ :=
  cs.foldl (fun a c => a * 10 + (c.toNat - 48)) 0

/-- Value of one digit in a radix up to 16. -/
def hexDigitVal (c : Char) : ℕ :=
  if c.isDigit then c.toNat - 48
  else if 'a' ≤ c ∧ c ≤ 'f' then c.toNat - 87
  else c.toNat - 55

/-- Value of a list of digits in the given radix. -/
def radixVal (radix : ℕ) (cs : List Char) : ℕ :=
  cs.foldl (fun a c => a * radix + hexDigitVal c) 0

/-- Digit test for radix 16, 8 or 2. -/
def isRadixDigit (radix : ℕ) (c : Char) : Bool :=
  if radix = 16 then c.isDigit || ('a' ≤ c && c ≤ 'f') || ('A' ≤ c && c ≤ 'F')
  else if radix = 8 then '0' ≤ c && c ≤ '7'
  else c = '0' || c = '1'

/-- The optional exponent suffix of a decimal literal: `some e` when the
remaining characters are exactly an optionally signed exponent or nothing,
`none` when trailing garbage is present. -/
def parseExpPart : List Char → Option ℤ
  | [] => some 0
  | c :: rest =>
    if c = 'e' ∨ c = 'E' then
      match rest with
      | '+' :: ds => if ds ≠ [] ∧ ds.all Char.isDigit then some (digitsVal ds) else none
      | '-' :: ds => if ds ≠ [] ∧ ds.all Char.isDigit then some (-(digitsVal ds : ℤ)) else none
      | ds => if ds ≠ [] ∧ ds.all Char.isDigit then some (digitsVal ds) else none
    else none

/-- An unsigned ECMAScript decimal literal — digits, optional fraction,
optional exponent — consuming the whole input; the exact value is returned as
a numerator/denominator pair of naturals. -/
def parseDecCore (cs : List Char) : Option (ℕ × ℕ) :=
  let ip := cs.takeWhile Char.isDigit
  let r1 := cs.dropWhile Char.isDigit
  let core : Option (ℕ × ℕ × List Char) :=
    match r1 with
    | '.' :: r2 =>
      let fp := r2.takeWhile Char.isDigit
      let r3 := r2.dropWhile Char.isDigit
      if ip = [] ∧ fp = [] then none
      else some (digitsVal ip * 10 ^ fp.length + digitsVal fp, 10 ^ fp.length, r3)
    | _ => if ip = [] then none else some (digitsVal ip, 1, r1)
  match core with
  | none => none
  | some (n, d, rest) =>
    match parseExpPart rest with
    | some e =>
      if 0 ≤ e then some (n * 10 ^ e.toNat, d) else some (n, d * 10 ^ (-e).toNat)
    | none => none

/-- An ECMAScript non-decimal integer literal (0x, 0o or 0b prefix), which the
grammar admits only without a sign. -/
def parseNonDecimal (cs : List Char) : Option ℕ :=
  match cs with
  | '0' :: p :: rest =>
    let radix :=
      if p = 'x' ∨ p = 'X' then 16
      else if p = 'o' ∨ p = 'O' then 8
      else if p = 'b' ∨ p = 'B' then 2 else 0
    if radix = 0 then none
    else if rest ≠ [] ∧ rest.all (isRadixDigit radix) then some (radixVal radix rest)
    else none
  | _ => none

/-- The ECMAScript string-to-number coercion used at src/index.ts line 340:
strip whitespace; empty means 0; otherwise a non-decimal integer literal, a
signed Infinity, or a signed decimal literal; anything else is NaN. -/
def jsStrToNumber (s : String) : JSNum :=
  let t := jsTrimmed s
  if t = [] then .val 0
  else
    match parseNonDecimal t with
    | some n => .val (mkRat n 1)
    | none =>
      let sgnNeg := t.head? = some '-'
      let body := if t.head? = some '+' ∨ t.head? = some '-' then t.tail else t
      if body = "Infinity".toList then .inf (!sgnNeg)
      else
        match parseDecCore body with
        | some nd => .val (mkRat (if sgnNeg then -(nd.1 : ℤ) else (nd.1 : ℤ)) nd.2)
        | none => .nan

/-- The cell coercion parseBooleanNumber (src/index.ts lines 336-346): the literal strings
"TRUE" and "FALSE" become booleans; otherwise a non-NaN numeric coercion of a
non-empty string becomes that number; otherwise the string stands. -/
def parseBooleanNumber (val : String) : JSValue :=
  if val = "TRUE" then .boolean true
  else if val = "FALSE" then .boolean false
  else
    let num := jsStrToNumber val
    if num ≠ JSNum.nan ∧ val ≠ "" then .num num else .str val

/-- One declared schema field (interface SchemaField, src/index.ts lines
6-10): a type name from "string", "number", "boolean"; the optional `required`
flag, whose absence models as `false`; and the column index that the binding
step assigns (`none` models the unassigned `undefined`). -/
structure SchemaField where
  type : String
  required : Bool := false
  index : Option ℕ := none
  deriving DecidableEq, Repr

/-- A schema object: field names with their descriptors, in the insertion
order that JavaScript `for..in` iteration follows. -/
abbrev Schema := List (String × SchemaField)

/-- A JavaScript record object: keys with values, in insertion order. -/
abbrev JSRecord := List (String × JSValue)

/-- JavaScript property read `obj[key]` on a record object: the bound value,
or `undefined` when the key is absent. -/
def lookupJS (obj : JSRecord) (key : String) : JSValue :=
  match obj.find? (fun p => p.1 == key) with
  | some p => p.2
  | none => .undefined

/-- The read `this.schema[key]`: `none` models JavaScript `undefined`. -/
def lookupField (schema : Schema) (key : String) : Option SchemaField :=
  (schema.find? (fun p => p.1 == key)).map Prod.snd

/-- JavaScript property write `obj[key] = v`: an existing key keeps its
position, a new key is appended. -/
def setKey (obj : JSRecord) (key : String) (v : JSValue) : JSRecord :=
  if obj.any (fun p => p.1 == key) then
    obj.map (fun p => if p.1 == key then (p.1, v) else p)
  else obj ++ [(key, v)]

/-- Array read `row[j]` on a fetched row of cell strings, where `j` itself may
be the unassigned `undefined` index: both an out-of-range read and
`row[undefined]` give `undefined`. -/
def cellAt (row : List String) : Option ℕ → JSValue
  | some j =>
    match row.get? j with
    | some s => .str s
    | none => .undefined
  | none => .undefined

/-- The per-row query matcher repeated verbatim in find, findOne, update and
delete (src/index.ts lines 273-283, 165-175, 229-239): query keys are tested
in insertion order; "__ID" compares strictly against cell 0, any other key
reads `this.schema[key].index`, which throws a TypeError when the key is not
a schema field.  `ok true` means the row is filtered out by some mismatching
key, `ok false` that the row survives every key. -/
def rowFilter (schema : Schema) (row : List String) : JSRecord → Except String Bool
  | [] => .ok false
  | (key, v) :: rest =>
    if key = "__ID" then
      if jsStrictEq (cellAt row (some 0)) v then rowFilter schema row rest else .ok true
    else
      match lookupField schema key with
      | none => .error "TypeError: cannot read the index of an undefined schema entry"
      | some fld =>
        if jsStrictEq (cellAt row fld.index) v then rowFilter schema row rest else .ok true

/-- The tombstone test of the two read paths (src/index.ts lines 287-290):
copy the row, blank cell 0, join all cells; an empty join means every
non-identity cell is empty. -/
def isTombstone (row : List String) : Bool :=
  String.join (row.set 0 "") == ""

/-- Decode of one surviving row (src/index.ts lines 292-295): the keys are
"__ID" followed by the schema keys in declaration order, cell j is read
positionally, and `row[j] || ""` turns a missing cell into the empty
string before coercion. -/
def decodeRow (schema : Schema) (row : List String) : JSRecord :=
  (("__ID" :: schema.map Prod.fst).enum).map
    (fun p => (p.2, parseBooleanNumber ((row.get? p.1).getD "")))

/-- The scan of `convertDataToJSONWithFilters` over the data rows. -/
def findRowsGo (schema : Schema) (query : JSRecord) : List (List String) → Except String (List JSRecord)
  | [] => .ok []
  | row :: rest =>
    match rowFilter schema row query with
    | .error e => .error e
    | .ok true => findRowsGo schema query rest
    | .ok false =>
      if isTombstone row then findRowsGo schema query rest
      else
        match findRowsGo schema query rest with
        | .error e => .error e
        | .ok l => .ok (decodeRow schema row :: l)

/-- The method convertDataToJSONWithFilters (src/index.ts lines 267-300), the read path
of `find`: skip the header row, keep each later row that survives the query
and is not a tombstone, decode it; a TypeError from the matcher propagates. -/
def convertDataToJSONWithFilters (schema : Schema) (data : List (List String)) (query : JSRecord) : Except String (List JSRecord) :=
  findRowsGo schema query (data.drop 1)

/-- The scan of `convertDataToJSONWithFiltersOne` over the data rows. -/
def findOneGo (schema : Schema) (query : JSRecord) : List (List String) → Except String (Option JSRecord)
  | [] => .ok none
  | row :: rest =>
    match rowFilter schema row query with
    | .error e => .error e
    | .ok true => findOneGo schema query rest
    | .ok false =>
      if isTombstone row then findOneGo schema query rest
      else .ok (some (decodeRow schema row))

/-- The method convertDataToJSONWithFiltersOne (src/index.ts lines 302-334), the read
path of `findOne`: as the list version, but it returns the first decoded
match, `none` modelling the `null` of no match. -/
def convertDataToJSONWithFiltersOne (schema : Schema) (data : List (List String)) (query : JSRecord) : Except String (Option JSRecord) :=
  findOneGo schema query (data.drop 1)

/-- The locate loop shared by update and delete, scanning from row index 1. -/
def locateGo (schema : Schema) (query : JSRecord) (i : ℕ) : List (List String) → Except String (Option (ℕ × List String))
  | [] => .ok none
  | row :: rest =>
    match rowFilter schema row query with
    | .error e => .error e
    | .ok true => locateGo schema query (i + 1) rest
    | .ok false => .ok (some (i, row))

/-- The locate scan of `update` and `delete` (src/index.ts lines 162-181 and
226-245): the first row, counted from index 1 past the header, that survives
the query; unlike the two read paths it has no tombstone test. -/
def locate (schema : Schema) (query : JSRecord) (data : List (List String)) : Except String (Option (ℕ × List String)) :=
  locateGo schema query 1 (data.drop 1)

/-- Array read `arr[j]` of a JavaScript array holding arbitrary values. -/
def jsGet (l : List JSValue) (j : ℕ) : JSValue :=
  (l.get? j).getD .undefined

/-- Array write `arr[j] = v`: in range it replaces the cell, past the end it
extends the array, the fresh slots being holes that read as `undefined`. -/
def jsArraySet (l : List JSValue) (j : ℕ) (v : JSValue) : List JSValue :=
  if j < l.length then l.set j v
  else l ++ List.replicate (j - l.length) JSValue.undefined ++ [v]

/-- Array write through an optional index: `arr[undefined] = v` creates a
non-index property that never reaches the positional cells sent to the sheet,
so the positional row is unchanged in this model. -/
def setCell (l : List JSValue) : Option ℕ → JSValue → List JSValue
  | some j, v => jsArraySet l j v
  | none, _ => l

/-- One pass of the validate-and-patch loop of update over the schema: the
`newData[key] !== undefined` guard, then the type check, then the cell
write. -/
def patchRowGo (newData : JSRecord) : Schema → List JSValue → Except String (List JSValue)
  | [], row => .ok row
  | (key, fld) :: rest, row =>
    if lookupJS newData key = .undefined then patchRowGo newData rest row
    else if fld.type ≠ typeofJS (lookupJS newData key) then
      .error (key ++ " field should be of type " ++ fld.type)
    else patchRowGo newData rest (setCell row fld.index (lookupJS newData key))

/-- The validate-and-patch loop of `update` (src/index.ts lines 185-192): for
each schema field present in the patch, a runtime-type mismatch throws before
anything is sent to the sheet; otherwise the patch value is written at the
field's bound index into the in-memory row. -/
def patchRow (schema : Schema) (row : List JSValue) (newData : JSRecord) : Except String (List JSValue) :=
  patchRowGo newData schema row

/-- The coercion parseBooleanNumber as invoked on a cell of the patched row, which may
already hold a non-string value (src/index.ts line 205): a number coerces to
itself, a boolean through `Number` to 1 or 0 since a boolean is never
strictly equal to "TRUE" or to "", and `undefined` coerces to NaN and is
returned unchanged. -/
def parseBooleanNumberCell : JSValue → JSValue
  | .str s => parseBooleanNumber s
  | .num n => .num n
  | .boolean b => .num (.val (if b then 1 else 0))
  | .undefined => .undefined

/-- Array read through an optional index, on a row of arbitrary values. -/
def cellRead (l : List JSValue) : Option ℕ → JSValue
  | some j => jsGet l j
  | none => .undefined

/-- The result loop of update (src/index.ts lines 204-206): every schema key
of the patch object is overwritten in place with the decoded cell of the
written row at that field's index. -/
def updateResult (row : List JSValue) : Schema → JSRecord → JSRecord
  | [], acc => acc
  | (key, fld) :: rest, acc =>
    updateResult row rest (setKey acc key (parseBooleanNumberCell (cellRead row fld.index)))

/-- The method update (src/index.ts lines 151-213): locate the first row surviving the
query, throwing when none is found; validate and patch the located row; and
emit the write request — the patched row together with the 0-based index of
the row it overwrites, the remote range being the single original row.  An
error result carries no write request, mirroring the source, where every
throw precedes the remote update call. -/
def updateOp (schema : Schema) (data : List (List String)) (query : JSRecord) (newData : JSRecord) : Except String (ℕ × List JSValue × JSRecord) :=
  match locate schema query data with
  | .error e => .error e
  | .ok none => .error "Cannot find row with this query!"
  | .ok (some (i, row)) =>
    match patchRow schema (row.map JSValue.str) newData with
    | .error e => .error e
    | .ok newRow => .ok (i, newRow, updateResult newRow schema newData)

/-- The method delete (src/index.ts lines 215-265): the same locate scan as update,
then `rowToUpdate.fill("")` and a single-row overwrite at the original
index. -/
def deleteOp (schema : Schema) (data : List (List String)) (query : JSRecord) : Except String (ℕ × List JSValue) :=
  match locate schema query data with
  | .error e => .error e
  | .ok none => .error "Cannot find row with this query!"
  | .ok (some (i, row)) => .ok (i, List.replicate row.length (JSValue.str ""))

/-- One pass of the build loop of create over the schema. -/
def createGo (data : JSRecord) : Schema → List JSValue → Except String (List JSValue)
  | [], acc => .ok acc
  | (key, fld) :: rest, acc =>
    if fld.required = true ∧ lookupJS data key = .undefined then
      .error (key ++ " field is required!")
    else createGo data rest (setCell acc fld.index (lookupJS data key))

/-- The method create (src/index.ts lines 94-119): the fresh identity token at cell 0,
then each schema field's value at its bound index, a required field absent
from the input throwing before the remote append; the appended row and the
returned record — the input plus the generated identity under "__ID" — exist
only in the success case, mirroring the source, where the throw precedes the
append call. -/
def create (schema : Schema) (data : JSRecord) (uniqueID : String) : Except String (List JSValue × JSRecord) :=
  match createGo data schema (jsArraySet [] 0 (.str uniqueID)) with
  | .error e => .error e
  | .ok newValues => .ok (newValues, setKey data "__ID" (.str uniqueID))

/-- Serialization of one written cell by the remote transport.  Modelled from
the spec: section 6 specifies the interpreted-value write mode — the mode
`update` and `delete` use — as turning boolean and numeric literals into
their sheet values, and strings pass through; number formatting is modelled
for integral values, which is all this development evaluates. -/
def serializeCell : JSValue → String
  | .str s => s
  | .boolean b => if b then "TRUE" else "FALSE"
  | .num JSNum.nan => "NaN"
  | .num (JSNum.inf pos) => if pos then "Infinity" else "-Infinity"
  | .num (JSNum.val q) => if q.den = 1 then toString q.num else toString q
  | .undefined => ""

/-- The remote table after an update call: a successful update overwrites the
located row in place, a thrown error leaves the table untouched, there being
no write request in that case. -/
def tableAfterUpdate (schema : Schema) (data : List (List String)) (query : JSRecord) (newData : JSRecord) : List (List String) :=
  match updateOp schema data query newData with
  | .ok (i, newRow, _) => data.set i (newRow.map serializeCell)
  | .error _ => data

/-- The remote table after a create call: a successful create appends the new
row after the last one, a thrown error leaves the table untouched, there
being no append request in that case. -/
def tableAfterCreate (schema : Schema) (data : List (List String)) (record : JSRecord) (uniqueID : String) : List (List String) :=
  match create schema record uniqueID with
  | .ok (row, _) => data ++ [row.map serializeCell]
  | .error _ => data

/-- The last position of a key in a header list, `none` when absent. -/
def lastIdxOf : List String → String → Option ℕ
  | [], _ => none
  | c :: rest, key =>
    match lastIdxOf rest key with
    | some j => some (j + 1)
    | none => if c = key then some 0 else none

/-- The header merge of `addHeaders` (src/index.ts lines 63-72): the fetched
header row with every schema key not already present pushed at the end in
declaration order; membership is decided against the set snapshot taken
before the pushes. -/
def mergedHeader (prev : List String) (schemaKeys : List String) : List String :=
  prev ++ schemaKeys.filter (fun k => !(prev.contains k))

/-- The addHeaders header computation, including the default for an absent
persisted header (src/index.ts line 63): a sheet without a header row yields
the singleton identity header before merging. -/
def bindHeader (fetched : Option (List String)) (schemaKeys : List String) : List String :=
  mergedHeader (fetched.getD ["__ID"]) schemaKeys

/-- The index-assignment loop of `addHeaders` (src/index.ts lines 74-78)
writes `schema[prevHeaders[i]].index = i` at every position whose header
entry is a schema key, so a schema key ends bound to its last occurrence in
the merged header — its unique position when the header has no duplicates. -/
def boundIndex (merged : List String) (key : String) : Option ℕ :=
  lastIdxOf merged key

/-- The state of a settled JavaScript promise. -/
inductive PromiseState where
  | resolvedState : String → PromiseState
  | rejectedState : String → PromiseState
  deriving DecidableEq, Repr

/-- The readiness-barrier executor (src/index.ts lines 37-45) as a function of
the outcome of authentication plus header binding: both arms of the
try/catch call `resolve` — with "success", or with the degraded "reject"
value — and the `reject` callback of the promise is never invoked. -/
def readinessBarrier (initResult : Except String Unit) : PromiseState :=
  match initResult with
  | .ok _ => .resolvedState "success"
  | .error _ => .resolvedState "reject"

/-- Awaiting a settled promise: the value of a resolved promise; a rejected
promise throws its error into the awaiting operation. -/
def awaitPromise : PromiseState → Except String String
  | .resolvedState v => .ok v
  | .rejectedState e => .error e

/-- Whether a row survives the raw query matcher — the selection criterion of
the locate scan of update and delete, which has no tombstone test. -/
def rawMatchB (schema : Schema) (query : JSRecord) (row : List String) : Bool :=
  match rowFilter schema row query with
  | .ok false => true
  | _ => false

/-- Whether a row is kept by the two read paths: it survives the query and is
not a tombstone. -/
def keptB (schema : Schema) (query : JSRecord) (row : List String) : Bool :=
  rawMatchB schema query row && !(isTombstone row)

/-- The build loop of create fails on a missing required field no matter the
accumulated row, and it reports the error message of such a field. -/
theorem createGo_missing_required (data : JSRecord) :
    ∀ schema : Schema,
      (∃ p ∈ schema, p.2.required = true ∧ lookupJS data p.1 = .undefined) →
      ∀ acc : List JSValue, ∃ key fld, (key, fld) ∈ schema ∧ fld.required = true ∧
        lookupJS data key = .undefined ∧
        createGo data schema acc = .error (key ++ " field is required!") := by
  intro schema
  induction schema with
  | nil => intro h; simp at h
  | cons p rest ih =>
    intro h acc
    obtain ⟨k, f⟩ := p
    by_cases hk : f.required = true ∧ lookupJS data k = .undefined
    · exact ⟨k, f, by simp, hk.1, hk.2, by simp [createGo, hk]⟩
    · have hrest : ∃ p ∈ rest, p.2.required = true ∧ lookupJS data p.1 = .undefined := by
        rcases h with ⟨q, hq, hq2⟩
        rcases List.mem_cons.mp hq with rfl | hq1
        · exact absurd hq2 hk
        · exact ⟨q, hq1, hq2⟩
      rcases ih hrest (setCell acc f.index (lookupJS data k)) with ⟨key, fld, hmem, h1, h2, h3⟩
      refine ⟨key, fld, List.mem_cons_of_mem _ hmem, h1, h2, ?_⟩
      simpa [createGo, hk] using h3

end SheetsORM

namespace SheetsORM

/-- Claim C3: decode coercion — `decodeRow` reads a missing or undefined cell
as the empty string; then the literal "TRUE" decodes to the boolean true and
"FALSE" to the boolean false; otherwise a non-empty string whose numeric
coercion is not NaN decodes to that number, the empty string never being
coerced to zero; any other string decodes to itself — all independent of the
declared field type, which `parseBooleanNumber` never receives. -/
theorem claimC3 :
    (∀ (schema : Schema) (row : List String) (j : ℕ) (key : String),
      ("__ID" :: schema.map Prod.fst).get? j = some key → row.get? j = none →
      (decodeRow schema row).get? j = some (key, parseBooleanNumber "")) ∧
    ∀ v : String,
      (v = "TRUE" → parseBooleanNumber v = .boolean true) ∧
      (v = "FALSE" → parseBooleanNumber v = .boolean false) ∧
      (v ≠ "TRUE" → v ≠ "FALSE" → jsStrToNumber v ≠ JSNum.nan → v ≠ "" →
        parseBooleanNumber v = .num (jsStrToNumber v)) ∧
      (v ≠ "TRUE" → v ≠ "FALSE" → (jsStrToNumber v = JSNum.nan ∨ v = "") →
        parseBooleanNumber v = .str v) := by
  constructor
  · intro schema row j key hkey hrow
    rw [List.get?_eq_getElem?] at hkey hrow
    simp [decodeRow, List.get?_eq_getElem?, List.getElem?_map, List.getElem?_enum, hkey, hrow]
  · intro v
    refine ⟨fun h => by subst h; decide, fun h => by subst h; decide, ?_, ?_⟩
    · intro h1 h2 h3 h4
      simp [parseBooleanNumber, h1, h2, h3, h4]
    · intro h1 h2 h3
      rcases h3 with h3 | h3
      · simp [parseBooleanNumber, h1, h2, h3]
      · subst h3; decide

/-- Witness for C3 at concrete cells: a short row leaves the "age" column
missing, which decodes like the empty string, and the four coercion shapes
at concrete strings. -/
theorem claimC3_witness :
    (decodeRow [("name", ⟨"string", true, some 1⟩), ("age", ⟨"number", true, some 2⟩)]
        ["idA", "Ann"]).get? 2 = some ("age", parseBooleanNumber "") ∧
    parseBooleanNumber "TRUE" = .boolean true ∧
    parseBooleanNumber "FALSE" = .boolean false ∧
    parseBooleanNumber "30" = .num (jsStrToNumber "30") ∧
    parseBooleanNumber "Ann" = .str "Ann" :=
  ⟨claimC3.1 [("name", ⟨"string", true, some 1⟩), ("age", ⟨"number", true, some 2⟩)]
      ["idA", "Ann"] 2 "age" (by decide) (by decide),
   (claimC3.2 "TRUE").1 rfl,
   (claimC3.2 "FALSE").2.1 rfl,
   (claimC3.2 "30").2.2.1 (by decide) (by decide) (by decide) (by decide),
   (claimC3.2 "Ann").2.2.2 (by decide) (by decide) (Or.inl (by decide))⟩

/-- Claim C10: every non-empty cell string whose numeric coercion succeeds
decodes to that number — the whitespace-only cell " " in particular decodes
to the number 0 — while the empty string decodes to the empty string, not to
zero. -/
theorem claimC10 :
    (∀ (v : String) (q : ℚ), v ≠ "" → jsStrToNumber v = JSNum.val q →
      parseBooleanNumber v = .num (.val q)) ∧
    parseBooleanNumber " " = .num (.val 0) ∧
    parseBooleanNumber "" = .str "" := by
  refine ⟨?_, by decide, by decide⟩
  intro v q hne hv
  have hT : v ≠ "TRUE" := by
    intro h
    rw [h, show jsStrToNumber "TRUE" = JSNum.nan from by decide] at hv
    cases hv
  have hF : v ≠ "FALSE" := by
    intro h
    rw [h, show jsStrToNumber "FALSE" = JSNum.nan from by decide] at hv
    cases hv
  simp [parseBooleanNumber, hT, hF, hne, hv]

/-- Witness for C10 at the whitespace-only cell. -/
theorem claimC10_witness :
    (" " ≠ "" ∧ jsStrToNumber " " = JSNum.val 0) ∧
    parseBooleanNumber " " = .num (.val 0) :=
  ⟨⟨by decide, by decide⟩, claimC10.1 " " 0 (by decide) (by decide)⟩

/-- Claim C8: the readiness barrier settles by resolving for every outcome of
authentication plus header binding — to "success", or to the degraded
"reject" value when initialization failed — never by rejecting, so awaiting
it never throws into a public operation and the failure is absorbed. -/
theorem claimC8 (r : Except String Unit) :
    (readinessBarrier r = .resolvedState "success" ∨
      readinessBarrier r = .resolvedState "reject") ∧
    (∀ e, readinessBarrier r ≠ .rejectedState e) ∧
    (∀ e, readinessBarrier (.error e) = .resolvedState "reject") ∧
    ∃ v, awaitPromise (readinessBarrier r) = .ok v := by
  cases r <;> simp [readinessBarrier, awaitPromise]

/-- Claim C4: a create whose input lacks some required schema field fails
with the missing-required-field error of such a field and issues no remote
append, the table being unchanged. -/
theorem claimC4 (schema : Schema) (data : JSRecord) (uniqueID : String)
    (table : List (List String))
    (h : ∃ p ∈ schema, p.2.required = true ∧ lookupJS data p.1 = .undefined) :
    (∃ key fld, (key, fld) ∈ schema ∧ fld.required = true ∧
      lookupJS data key = .undefined ∧
      create schema data uniqueID = .error (key ++ " field is required!")) ∧
    tableAfterCreate schema table data uniqueID = table := by
  rcases createGo_missing_required data schema h (jsArraySet [] 0 (.str uniqueID)) with
    ⟨key, fld, hmem, h1, h2, h3⟩
  have hc : create schema data uniqueID = .error (key ++ " field is required!") := by
    simp [create, h3]
  exact ⟨⟨key, fld, hmem, h1, h2, hc⟩, by simp [tableAfterCreate, hc]⟩

/-- Witness for C4: creating a record without the required "age" field fails
with its error and appends nothing. -/
theorem claimC4_witness :
    (∃ key fld,
      (key, fld) ∈ ([("name", ⟨"string", true, some 1⟩), ("age", ⟨"number", true, some 2⟩)] : Schema) ∧
      fld.required = true ∧ lookupJS [("name", .str "Ann")] key = .undefined ∧
      create [("name", ⟨"string", true, some 1⟩), ("age", ⟨"number", true, some 2⟩)]
        [("name", .str "Ann")] "tok" = .error (key ++ " field is required!")) ∧
    tableAfterCreate [("name", ⟨"string", true, some 1⟩), ("age", ⟨"number", true, some 2⟩)]
      [["__ID", "name", "age"]] [("name", .str "Ann")] "tok" = [["__ID", "name", "age"]] :=
  claimC4 [("name", ⟨"string", true, some 1⟩), ("age", ⟨"number", true, some 2⟩)]
    [("name", .str "Ann")] "tok" [["__ID", "name", "age"]]
    ⟨("age", ⟨"number", true, some 2⟩), by decide, by decide, by decide⟩

/-- A key absent from a header list has no last index. -/
theorem lastIdxOf_eq_none (l : List String) (key : String) (h : key ∉ l) :
    lastIdxOf l key = none := by
  induction l with
  | nil => rfl
  | cons c rest ih =>
    have h1 : key ∉ rest := fun hm => h (List.mem_cons_of_mem _ hm)
    have h2 : ¬(c = key) := fun hc => h (hc ▸ List.mem_cons_self _ _)
    simp [lastIdxOf, ih h1, h2]

/-- Appending entries that do not mention a key keeps its last index. -/
theorem lastIdxOf_append_of_not_mem (l1 l2 : List String) (key : String) (h : key ∉ l2) :
    lastIdxOf (l1 ++ l2) key = lastIdxOf l1 key := by
  induction l1 with
  | nil => simp [lastIdxOf_eq_none l2 key h, lastIdxOf]
  | cons c rest ih => simp [lastIdxOf, ih]

/-- The last index of a key points at that key. -/
theorem lastIdxOf_get (l : List String) (key : String) :
    ∀ i, lastIdxOf l key = some i → l.get? i = some key := by
  induction l with
  | nil => intro i h; cases h
  | cons c rest ih =>
    intro i h
    rw [lastIdxOf] at h
    cases hr : lastIdxOf rest key with
    | some j =>
      rw [hr] at h
      cases h
      simpa using ih j hr
    | none =>
      rw [hr] at h
      by_cases hc : c = key
      · rw [if_pos hc] at h
        cases h
        simpa using hc
      · rw [if_neg hc] at h
        cases h

/-- A present key has a last index. -/
theorem lastIdxOf_isSome_of_mem (l : List String) (key : String) (h : key ∈ l) :
    (lastIdxOf l key).isSome := by
  induction l with
  | nil => cases h
  | cons c rest ih =>
    rw [lastIdxOf]
    cases hr : lastIdxOf rest key with
    | some j => simp
    | none =>
      rcases List.mem_cons.mp h with rfl | hm
      · simp
      · have := ih hm
        rw [hr] at this
        cases this

/-- Every schema key lands in the merged header. -/
theorem mem_mergedHeader (prev : List String) (schemaKeys : List String) (key : String)
    (h : key ∈ schemaKeys) : key ∈ mergedHeader prev schemaKeys := by
  unfold mergedHeader
  by_cases hp : key ∈ prev
  · exact List.mem_append_left _ hp
  · refine List.mem_append_right _ ?_
    refine List.mem_filter.mpr ⟨h, ?_⟩
    simpa using hp

end SheetsORM

namespace SheetsORM

/-- Claim C1: header binding is additive and index-stable — an absent
persisted header defaults to the singleton identity header; binding appends
to the fetched header exactly the schema fields not already present, at the
end, in declaration order, neither reordering nor removing existing entries;
every schema field's columnIndex is bound to a position holding that field in
the merged header, which is persisted; and binding the schema extended by one
new field after a first binding never changes the column index bound to any
field of the first schema. -/
theorem claimC1 (H0 : List String) (s1Keys : List String) (newKey : String)
    (hnew : newKey ∉ s1Keys) :
    bindHeader none s1Keys = mergedHeader ["__ID"] s1Keys ∧
    (∀ fetched : List String,
      bindHeader (some fetched) s1Keys =
        fetched ++ s1Keys.filter (fun k => !(fetched.contains k))) ∧
    (∀ key ∈ s1Keys, ∃ i, boundIndex (bindHeader (some H0) s1Keys) key = some i ∧
      (bindHeader (some H0) s1Keys).get? i = some key) ∧
    (∀ key ∈ s1Keys,
      boundIndex (bindHeader (some (bindHeader (some H0) s1Keys)) (s1Keys ++ [newKey])) key =
        boundIndex (bindHeader (some H0) s1Keys) key) := by
  refine ⟨rfl, fun fetched => rfl, ?_, ?_⟩
  · intro key hkey
    have hmem : key ∈ bindHeader (some H0) s1Keys := mem_mergedHeader H0 s1Keys key hkey
    have hsome := lastIdxOf_isSome_of_mem _ key hmem
    cases hi : lastIdxOf (bindHeader (some H0) s1Keys) key with
    | none => rw [hi] at hsome; cases hsome
    | some i => exact ⟨i, hi, lastIdxOf_get _ key i hi⟩
  · intro key hkey
    have hmem : ∀ k ∈ s1Keys, k ∈ bindHeader (some H0) s1Keys :=
      fun k hk => mem_mergedHeader H0 s1Keys k hk
    have hfilter : s1Keys.filter
        (fun k => !((bindHeader (some H0) s1Keys).contains k)) = [] := by
      refine List.filter_eq_nil_iff.mpr ?_
      intro k hk
      simpa using hmem k hk
    have happ : bindHeader (some (bindHeader (some H0) s1Keys)) (s1Keys ++ [newKey]) =
        bindHeader (some H0) s1Keys ++
          [newKey].filter (fun k => !((bindHeader (some H0) s1Keys).contains k)) := by
      show mergedHeader _ _ = _
      unfold mergedHeader
      simp only [Option.getD_some]
      rw [List.filter_append, hfilter, List.nil_append]
    have hnotin : key ∉ [newKey].filter
        (fun k => !((bindHeader (some H0) s1Keys).contains k)) := by
      intro hm
      have : key ∈ [newKey] := List.mem_of_mem_filter hm
      simp at this
      exact hnew (this ▸ hkey)
    unfold boundIndex
    rw [happ, lastIdxOf_append_of_not_mem _ _ key hnotin]

/-- Witness for C1: after binding a name/age schema over a fresh sheet,
binding the schema extended by "email" keeps the indices of "name" and "age"
at 1 and 2 while the merged header only grows at the end. -/
theorem claimC1_witness :
    ((bindHeader none ["name", "age"] = mergedHeader ["__ID"] ["name", "age"]) ∧
     (∀ fetched : List String,
       bindHeader (some fetched) ["name", "age"] =
         fetched ++ ["name", "age"].filter (fun k => !(fetched.contains k))) ∧
     (∀ key ∈ ["name", "age"], ∃ i,
       boundIndex (bindHeader (some ["__ID"]) ["name", "age"]) key = some i ∧
       (bindHeader (some ["__ID"]) ["name", "age"]).get? i = some key) ∧
     (∀ key ∈ ["name", "age"],
       boundIndex (bindHeader (some (bindHeader (some ["__ID"]) ["name", "age"]))
           (["name", "age"] ++ ["email"])) key =
         boundIndex (bindHeader (some ["__ID"]) ["name", "age"]) key)) ∧
    bindHeader (some ["__ID"]) ["name", "age"] = ["__ID", "name", "age"] ∧
    bindHeader (some ["__ID", "name", "age"]) ["name", "age", "email"] =
      ["__ID", "name", "age", "email"] ∧
    boundIndex ["__ID", "name", "age"] "name" = some 1 ∧
    boundIndex ["__ID", "name", "age", "email"] "name" = some 1 ∧
    boundIndex ["__ID", "name", "age"] "age" = some 2 ∧
    boundIndex ["__ID", "name", "age", "email"] "age" = some 2 :=
  ⟨claimC1 ["__ID"] ["name", "age"] "email" (by decide),
   by decide, by decide, by decide, by decide, by decide, by decide⟩

/-- Every record produced by the find scan derives from a non-tombstone row
of the scanned range that survives the query. -/
theorem findRowsGo_sound (schema : Schema) (query : JSRecord) :
    ∀ (rows : List (List String)) (l : List JSRecord),
      findRowsGo schema query rows = .ok l →
      ∀ r ∈ l, ∃ row ∈ rows, isTombstone row = false ∧
        rowFilter schema row query = .ok false ∧ r = decodeRow schema row := by
  intro rows
  induction rows with
  | nil =>
    intro l h r hr
    rw [findRowsGo] at h
    cases h
    cases hr
  | cons row rest ih =>
    intro l h r hr
    rw [findRowsGo] at h
    cases hf : rowFilter schema row query with
    | error e => rw [hf] at h; cases h
    | ok b =>
      rw [hf] at h
      cases b with
      | true =>
        rcases ih l h r hr with ⟨row2, hmem, h1, h2, h3⟩
        exact ⟨row2, List.mem_cons_of_mem _ hmem, h1, h2, h3⟩
      | false =>
        by_cases ht : isTombstone row
        · rw [if_pos ht] at h
          rcases ih l h r hr with ⟨row2, hmem, h1, h2, h3⟩
          exact ⟨row2, List.mem_cons_of_mem _ hmem, h1, h2, h3⟩
        · rw [if_neg ht] at h
          cases hrest : findRowsGo schema query rest with
          | error e => rw [hrest] at h; cases h
          | ok l2 =>
            rw [hrest] at h
            cases h
            rcases List.mem_cons.mp hr with rfl | hr2
            · exact ⟨row, List.mem_cons_self _ _, Bool.not_eq_true _ ▸ by simpa using ht, hf, rfl⟩
            · rcases ih l2 hrest r hr2 with ⟨row2, hmem, h1, h2, h3⟩
              exact ⟨row2, List.mem_cons_of_mem _ hmem, h1, h2, h3⟩

/-- The record produced by the findOne scan derives from a non-tombstone row
of the scanned range that survives the query. -/
theorem findOneGo_sound (schema : Schema) (query : JSRecord) :
    ∀ (rows : List (List String)) (r : JSRecord),
      findOneGo schema query rows = .ok (some r) →
      ∃ row ∈ rows, isTombstone row = false ∧
        rowFilter schema row query = .ok false ∧ r = decodeRow schema row := by
  intro rows
  induction rows with
  | nil => intro r h; rw [findOneGo] at h; cases h
  | cons row rest ih =>
    intro r h
    rw [findOneGo] at h
    cases hf : rowFilter schema row query with
    | error e => rw [hf] at h; cases h
    | ok b =>
      rw [hf] at h
      cases b with
      | true =>
        rcases ih r h with ⟨row2, hmem, h1, h2, h3⟩
        exact ⟨row2, List.mem_cons_of_mem _ hmem, h1, h2, h3⟩
      | false =>
        by_cases ht : isTombstone row
        · rw [if_pos ht] at h
          rcases ih r h with ⟨row2, hmem, h1, h2, h3⟩
          exact ⟨row2, List.mem_cons_of_mem _ hmem, h1, h2, h3⟩
        · rw [if_neg ht] at h
          cases h
          exact ⟨row, List.mem_cons_self _ _, by simpa using ht, hf, rfl⟩

end SheetsORM

namespace SheetsORM

/-- Counterexample to claim C2 as stated: on a table whose first data row is
a tombstone, the locate scan shared by update and delete selects that very
tombstone under the empty query — delete blanks it again and update patches
it — although both read paths skip it. -/
theorem claimC2_counterexample :
    isTombstone ["", "", ""] = true ∧
    locate [("name", ⟨"string", true, some 1⟩), ("age", ⟨"number", true, some 2⟩)] []
        [["__ID", "name", "age"], ["", "", ""], ["idB", "Ann", "30"]] =
      .ok (some (1, ["", "", ""])) ∧
    deleteOp [("name", ⟨"string", true, some 1⟩), ("age", ⟨"number", true, some 2⟩)]
        [["__ID", "name", "age"], ["", "", ""], ["idB", "Ann", "30"]] [] =
      .ok (1, [.str "", .str "", .str ""]) ∧
    updateOp [("name", ⟨"string", true, some 1⟩), ("age", ⟨"number", true, some 2⟩)]
        [["__ID", "name", "age"], ["", "", ""], ["idB", "Ann", "30"]] []
        [("age", .num (.val 31))] =
      .ok (1, [.str "", .str "", .num (.val 31)],
        [("age", .num (.val 31)), ("name", .str "")]) :=
  ⟨by decide, by decide, by decide, by decide⟩

/-- Amended claim C2: the two read paths do exclude tombstones — every record
find returns, and any record findOne returns, derives from a non-tombstone
row that survives the query — but the locate scans of update and delete have
no tombstone test and can select a tombstone row. -/
theorem claimC2_amended (schema : Schema) (data : List (List String)) (query : JSRecord) :
    (∀ l, convertDataToJSONWithFilters schema data query = .ok l →
      ∀ r ∈ l, ∃ row ∈ data.drop 1, isTombstone row = false ∧
        rowFilter schema row query = .ok false ∧ r = decodeRow schema row) ∧
    (∀ r, convertDataToJSONWithFiltersOne schema data query = .ok (some r) →
      ∃ row ∈ data.drop 1, isTombstone row = false ∧
        rowFilter schema row query = .ok false ∧ r = decodeRow schema row) :=
  ⟨fun l h => findRowsGo_sound schema query (data.drop 1) l h,
   fun r h => findOneGo_sound schema query (data.drop 1) r h⟩

/-- Witness for the amended C2 on a concrete table with a tombstone: the one
record find returns derives from the non-tombstone row. -/
theorem claimC2_witness :
    ∃ row ∈ ([["__ID", "name", "age"], ["", "", ""], ["idB", "Ann", "30"]] :
        List (List String)).drop 1,
      isTombstone row = false ∧
      rowFilter [("name", ⟨"string", true, some 1⟩), ("age", ⟨"number", true, some 2⟩)]
        row [] = .ok false ∧
      ([("__ID", JSValue.str "idB"), ("name", JSValue.str "Ann"),
        ("age", JSValue.num (.val 30))] : JSRecord) =
        decodeRow [("name", ⟨"string", true, some 1⟩), ("age", ⟨"number", true, some 2⟩)] row :=
  (claimC2_amended [("name", ⟨"string", true, some 1⟩), ("age", ⟨"number", true, some 2⟩)]
      [["__ID", "name", "age"], ["", "", ""], ["idB", "Ann", "30"]] []).1
    [[("__ID", .str "idB"), ("name", .str "Ann"), ("age", .num (.val 30))]]
    (by decide)
    [("__ID", .str "idB"), ("name", .str "Ann"), ("age", .num (.val 30))]
    (by decide)

end SheetsORM

namespace SheetsORM

/-- Counterexample to claim C9 as stated: the matcher evaluates query keys in
order and stops at the first mismatch, so a query holding the unknown key
"oops" behind a schema key that already mismatches every data row completes
without any error — find returns the empty list instead of throwing. -/
theorem claimC9_counterexample :
    lookupField [("name", ⟨"string", true, some 1⟩)] "oops" = none ∧
    rowFilter [("name", ⟨"string", true, some 1⟩)] ["idA", "Ann"]
      [("name", .str "Bob"), ("oops", .str "x")] = .ok true ∧
    convertDataToJSONWithFilters [("name", ⟨"string", true, some 1⟩)]
      [["__ID", "name"], ["idA", "Ann"]]
      [("name", .str "Bob"), ("oops", .str "x")] = .ok [] :=
  ⟨by decide, by decide, by decide⟩

/-- Amended claim C9: a query key that is neither "__ID" nor a schema field
makes the matcher throw a TypeError exactly when it is reached — on any row
that survives every query key before it — while a row already filtered by an
earlier key is dropped without an error rather than the key being ignored on
that row. -/
theorem claimC9_amended (schema : Schema) (row : List String) (post : JSRecord)
    (badKey : String) (v : JSValue) (hbad1 : badKey ≠ "__ID")
    (hbad2 : lookupField schema badKey = none) :
    ∀ pre : JSRecord,
      (rowFilter schema row pre = .ok false →
        rowFilter schema row (pre ++ (badKey, v) :: post) =
          .error "TypeError: cannot read the index of an undefined schema entry") ∧
      (rowFilter schema row pre = .ok true →
        rowFilter schema row (pre ++ (badKey, v) :: post) = .ok true) := by
  intro pre
  induction pre with
  | nil =>
    constructor
    · intro _
      simp [rowFilter, hbad1, hbad2]
    · intro h
      rw [rowFilter] at h
      cases h
  | cons kv rest ih =>
    obtain ⟨key, w⟩ := kv
    rw [List.cons_append]
    constructor <;> intro h <;> rw [rowFilter] at h ⊢
    · by_cases hk : key = "__ID"
      · rw [if_pos hk] at h ⊢
        by_cases he : jsStrictEq (cellAt row (some 0)) w = true
        · rw [if_pos he] at h ⊢
          exact ih.1 h
        · rw [if_neg he] at h
          cases h
      · rw [if_neg hk] at h ⊢
        cases hlf : lookupField schema key with
        | none => rw [hlf] at h
        | some fld =>
          rw [hlf] at h
          dsimp only at h
          dsimp only
          by_cases he : jsStrictEq (cellAt row fld.index) w = true
          · rw [if_pos he] at h ⊢
            exact ih.1 h
          · rw [if_neg he] at h
            cases h
    · by_cases hk : key = "__ID"
      · rw [if_pos hk] at h ⊢
        by_cases he : jsStrictEq (cellAt row (some 0)) w = true
        · rw [if_pos he] at h ⊢
          exact ih.2 h
        · rw [if_neg he]
      · rw [if_neg hk] at h ⊢
        cases hlf : lookupField schema key with
        | none =>
          rw [hlf] at h
          simp at h
        | some fld =>
          rw [hlf] at h
          dsimp only at h
          dsimp only
          by_cases he : jsStrictEq (cellAt row fld.index) w = true
          · rw [if_pos he] at h ⊢
            exact ih.2 h
          · rw [if_neg he]

/-- Witness for the amended C9: on a row surviving the earlier key, the
unknown key "oops" is reached and the matcher throws its TypeError. -/
theorem claimC9_witness :
    (rowFilter [("name", ⟨"string", true, some 1⟩)] ["idA", "Ann"]
        [("name", JSValue.str "Ann")] = .ok false →
      rowFilter [("name", ⟨"string", true, some 1⟩)] ["idA", "Ann"]
          ([("name", JSValue.str "Ann")] ++ ("oops", JSValue.str "x") :: []) =
        .error "TypeError: cannot read the index of an undefined schema entry") ∧
    rowFilter [("name", ⟨"string", true, some 1⟩)] ["idA", "Ann"]
      [("name", JSValue.str "Ann")] = .ok false :=
  ⟨(claimC9_amended [("name", ⟨"string", true, some 1⟩)] ["idA", "Ann"] []
      "oops" (.str "x") (by decide) (by decide) [("name", JSValue.str "Ann")]).1,
   by decide⟩

/-- Writing cell j of a JavaScript array and reading it back gives the
written value. -/
theorem jsGet_jsArraySet_self (l : List JSValue) (j : ℕ) (v : JSValue) :
    jsGet (jsArraySet l j v) j = v := by
  unfold jsGet jsArraySet
  by_cases h : j < l.length
  · rw [if_pos h, List.get?_eq_getElem?, List.getElem?_set_eq_of_lt v h]
    rfl
  · rw [if_neg h, List.get?_eq_getElem?]
    have hlen : l.length ≤ j := Nat.le_of_not_lt h
    rw [List.append_assoc, List.getElem?_append_right hlen]
    have hv : (List.replicate (j - l.length) JSValue.undefined ++ [v])[j - l.length]? = some v := by
      rw [List.getElem?_append_right (by simp)]
      simp
    rw [hv]
    rfl

/-- Writing cell j of a JavaScript array leaves every other cell reading as
before. -/
theorem jsGet_jsArraySet_ne (l : List JSValue) (j j2 : ℕ) (v : JSValue) (h : j2 ≠ j) :
    jsGet (jsArraySet l j v) j2 = jsGet l j2 := by
  unfold jsGet jsArraySet
  by_cases hj : j < l.length
  · rw [if_pos hj, List.get?_eq_getElem?, List.get?_eq_getElem?,
      List.getElem?_set_ne (Ne.symm h)]
  · rw [if_neg hj]
    have hj2 : l.length ≤ j := Nat.le_of_not_lt hj
    simp only [List.get?_eq_getElem?]
    rw [List.append_assoc]
    by_cases h2 : j2 < l.length
    · rw [List.getElem?_append_left h2]
    · have hl : l.length ≤ j2 := Nat.le_of_not_lt h2
      rw [List.getElem?_append_right hl, List.getElem?_eq_none hl]
      by_cases h3 : j2 - l.length < j - l.length
      · rw [List.getElem?_append_left (by simpa using h3), List.getElem?_replicate,
          if_pos h3]
        rfl
      · have hge : (List.replicate (j - l.length) JSValue.undefined ++ [v]).length ≤
            j2 - l.length := by
          simp only [List.length_append, List.length_replicate, List.length_cons,
            List.length_nil]
          omega
        rw [List.getElem?_eq_none hge]

/-- Writing through an index other than j leaves cell j reading as before,
also through an unassigned index. -/
theorem jsGet_setCell_ne (l : List JSValue) (idx : Option ℕ) (v : JSValue) (j : ℕ)
    (h : idx ≠ some j) : jsGet (setCell l idx v) j = jsGet l j := by
  cases idx with
  | none => rfl
  | some j0 =>
    have hj : j ≠ j0 := fun he => h (by rw [he])
    exact jsGet_jsArraySet_ne l j0 j v hj

/-- Cells at positions that no present patch field is bound to are untouched
by the validate-and-patch loop. -/
theorem patchRowGo_frame (newData : JSRecord) :
    ∀ (schema : Schema) (row out : List JSValue),
      patchRowGo newData schema row = .ok out →
      ∀ j : ℕ, (∀ p ∈ schema, lookupJS newData p.1 ≠ .undefined → p.2.index ≠ some j) →
        jsGet out j = jsGet row j := by
  intro schema
  induction schema with
  | nil =>
    intro row out h j hj
    cases h
    rfl
  | cons p rest ih =>
    intro row out h j hj
    obtain ⟨key, fld⟩ := p
    rw [patchRowGo] at h
    by_cases hv : lookupJS newData key = .undefined
    · rw [if_pos hv] at h
      exact ih row out h j (fun q hq => hj q (List.mem_cons_of_mem _ hq))
    · rw [if_neg hv] at h
      by_cases ht : fld.type ≠ typeofJS (lookupJS newData key)
      · rw [if_pos ht] at h
        cases h
      · rw [if_neg ht] at h
        have hidx : fld.index ≠ some j := hj (key, fld) (List.mem_cons_self _ _) hv
        rw [ih (setCell row fld.index (lookupJS newData key)) out h j
          (fun q hq => hj q (List.mem_cons_of_mem _ hq))]
        exact jsGet_setCell_ne row fld.index _ j hidx

/-- After the validate-and-patch loop, the cell a present patch field is
bound to holds that patch value, the bound indices being pairwise distinct. -/
theorem patchRowGo_sets (newData : JSRecord) :
    ∀ (schema : Schema) (row out : List JSValue),
      patchRowGo newData schema row = .ok out →
      List.Pairwise (fun a b : String × SchemaField => a.2.index ≠ b.2.index) schema →
      ∀ key fld j, (key, fld) ∈ schema → lookupJS newData key ≠ .undefined →
        fld.index = some j → jsGet out j = lookupJS newData key := by
  intro schema
  induction schema with
  | nil =>
    intro row out h hpw key fld j hmem
    cases hmem
  | cons p rest ih =>
    intro row out h hpw key fld j hmem hpres hidx
    obtain ⟨key0, fld0⟩ := p
    rw [patchRowGo] at h
    rcases List.mem_cons.mp hmem with heq | hmem2
    · cases heq
      rw [if_neg hpres] at h
      by_cases ht : fld.type ≠ typeofJS (lookupJS newData key)
      · rw [if_pos ht] at h
        cases h
      · rw [if_neg ht] at h
        have hrest : ∀ q ∈ rest, lookupJS newData q.1 ≠ .undefined → q.2.index ≠ some j := by
          intro q hq _
          have hne := (List.pairwise_cons.mp hpw).1 q hq
          rw [hidx] at hne
          exact Ne.symm hne
        rw [patchRowGo_frame newData rest (setCell row fld.index (lookupJS newData key))
          out h j hrest]
        rw [hidx]
        exact jsGet_jsArraySet_self row j _
    · by_cases hv : lookupJS newData key0 = .undefined
      · rw [if_pos hv] at h
        exact ih row out h (List.pairwise_cons.mp hpw).2 key fld j hmem2 hpres hidx
      · rw [if_neg hv] at h
        by_cases ht : fld0.type ≠ typeofJS (lookupJS newData key0)
        · rw [if_pos ht] at h
          cases h
        · rw [if_neg ht] at h
          exact ih _ out h (List.pairwise_cons.mp hpw).2 key fld j hmem2 hpres hidx

/-- A present patch field with a mismatched runtime type makes the
validate-and-patch loop throw the type error of such a field, whatever the
accumulated row. -/
theorem patchRowGo_mismatch (newData : JSRecord) :
    ∀ (schema : Schema) (row : List JSValue),
      (∃ p ∈ schema, lookupJS newData p.1 ≠ .undefined ∧
        p.2.type ≠ typeofJS (lookupJS newData p.1)) →
      ∃ key fld, (key, fld) ∈ schema ∧ lookupJS newData key ≠ .undefined ∧
        fld.type ≠ typeofJS (lookupJS newData key) ∧
        patchRowGo newData schema row =
          .error (key ++ " field should be of type " ++ fld.type) := by
  intro schema
  induction schema with
  | nil =>
    intro row h
    simp at h
  | cons p rest ih =>
    intro row h
    obtain ⟨key0, fld0⟩ := p
    by_cases hk : lookupJS newData key0 ≠ .undefined ∧ fld0.type ≠ typeofJS (lookupJS newData key0)
    · refine ⟨key0, fld0, List.mem_cons_self _ _, hk.1, hk.2, ?_⟩
      rw [patchRowGo, if_neg hk.1, if_pos hk.2]
    · have hrest : ∃ p ∈ rest, lookupJS newData p.1 ≠ .undefined ∧
          p.2.type ≠ typeofJS (lookupJS newData p.1) := by
        rcases h with ⟨q, hq, hq2⟩
        rcases List.mem_cons.mp hq with rfl | hq1
        · exact absurd hq2 hk
        · exact ⟨q, hq1, hq2⟩
      by_cases hv : lookupJS newData key0 = .undefined
      · rcases ih row hrest with ⟨key, fld, hmem, h1, h2, h3⟩
        refine ⟨key, fld, List.mem_cons_of_mem _ hmem, h1, h2, ?_⟩
        rw [patchRowGo, if_pos hv]
        exact h3
      · have ht : ¬fld0.type ≠ typeofJS (lookupJS newData key0) := by
          intro hc
          exact hk ⟨hv, hc⟩
        rcases ih (setCell row fld0.index (lookupJS newData key0)) hrest with
          ⟨key, fld, hmem, h1, h2, h3⟩
        refine ⟨key, fld, List.mem_cons_of_mem _ hmem, h1, h2, ?_⟩
        rw [patchRowGo, if_neg hv, if_neg ht]
        exact h3

/-- When every present patch field carries its declared type, the
validate-and-patch loop succeeds. -/
theorem patchRowGo_ok (newData : JSRecord) :
    ∀ (schema : Schema) (row : List JSValue),
      (∀ p ∈ schema, lookupJS newData p.1 ≠ .undefined →
        p.2.type = typeofJS (lookupJS newData p.1)) →
      ∃ out, patchRowGo newData schema row = .ok out := by
  intro schema
  induction schema with
  | nil => exact fun row _ => ⟨row, rfl⟩
  | cons p rest ih =>
    intro row h
    obtain ⟨key0, fld0⟩ := p
    by_cases hv : lookupJS newData key0 = .undefined
    · rcases ih row (fun q hq => h q (List.mem_cons_of_mem _ hq)) with ⟨out, hout⟩
      exact ⟨out, by rw [patchRowGo, if_pos hv]; exact hout⟩
    · have ht : fld0.type = typeofJS (lookupJS newData key0) :=
        h (key0, fld0) (List.mem_cons_self _ _) hv
      rcases ih (setCell row fld0.index (lookupJS newData key0))
        (fun q hq => h q (List.mem_cons_of_mem _ hq)) with ⟨out, hout⟩
      refine ⟨out, ?_⟩
      rw [patchRowGo, if_neg hv, if_neg (by simp [ht])]
      exact hout

end SheetsORM

namespace SheetsORM

/-- Claim C5: identity and frame preservation of update — with the identity
column bound at position 0 and every schema field bound to a column index of
at least 1 (pairwise distinct), a successful update writes back, at the index
of the row the locate scan selected, a row that agrees with the original on
every cell no present patch field is bound to — the identity cell at position
0 included, whatever "__ID" entry the patch may carry — and holds the patch
value at each present patch field's bound index. -/
theorem claimC5 (schema : Schema) (data : List (List String)) (query newData : JSRecord)
    (hidx : ∀ p ∈ schema, p.2.index ≠ none ∧ p.2.index ≠ some 0)
    (hpw : List.Pairwise (fun a b : String × SchemaField => a.2.index ≠ b.2.index) schema)
    (i : ℕ) (newRow : List JSValue) (rec : JSRecord)
    (h : updateOp schema data query newData = .ok (i, newRow, rec)) :
    ∃ origRow, locate schema query data = .ok (some (i, origRow)) ∧
      (∀ j, (∀ p ∈ schema, lookupJS newData p.1 ≠ .undefined → p.2.index ≠ some j) →
        jsGet newRow j = jsGet (origRow.map JSValue.str) j) ∧
      jsGet newRow 0 = jsGet (origRow.map JSValue.str) 0 ∧
      (∀ key fld j, (key, fld) ∈ schema → lookupJS newData key ≠ .undefined →
        fld.index = some j → jsGet newRow j = lookupJS newData key) := by
  unfold updateOp at h
  cases hl : locate schema query data with
  | error e =>
    rw [hl] at h
    cases h
  | ok o =>
    rw [hl] at h
    cases o with
    | none =>
      dsimp only at h
      cases h
    | some pr =>
      obtain ⟨i0, row⟩ := pr
      dsimp only at h
      cases hp : patchRow schema (row.map JSValue.str) newData with
      | error e =>
        rw [hp] at h
        cases h
      | ok nr =>
        rw [hp] at h
        dsimp only at h
        injection h with h1
        injection h1 with h2 h3
        injection h3 with h4 h5
        subst h2
        subst h4
        refine ⟨row, rfl, ?_, ?_, ?_⟩
        · intro j hj
          exact patchRowGo_frame newData schema (row.map JSValue.str) nr hp j hj
        · have h0 : ∀ p ∈ schema, lookupJS newData p.1 ≠ .undefined → p.2.index ≠ some 0 :=
            fun p hp2 _ => (hidx p hp2).2
          exact patchRowGo_frame newData schema (row.map JSValue.str) nr hp 0 h0
        · intro key fld j hmem hpres hij
          exact patchRowGo_sets newData schema (row.map JSValue.str) nr hp hpw
            key fld j hmem hpres hij

/-- Witness for C5: a concrete update through the identity query overwrites
only the "age" cell, keeps the identity cell "idA" although the patch also
carries a colliding "__ID" entry, and writes back at row index 1. -/
theorem claimC5_witness :
    (∃ origRow,
      locate ([("name", ⟨"string", true, some 1⟩), ("age", ⟨"number", true, some 2⟩)] : Schema)
          [("__ID", JSValue.str "idA")]
          [["__ID", "name", "age"], ["idA", "Ann", "30"], ["idC", "Bob", "40"]] =
        .ok (some (1, origRow)) ∧
      (∀ j, (∀ p ∈ ([("name", ⟨"string", true, some 1⟩), ("age", ⟨"number", true, some 2⟩)] : Schema),
          lookupJS [("age", JSValue.num (.val 31)), ("__ID", JSValue.str "HACK")] p.1 ≠ .undefined →
          p.2.index ≠ some j) →
        jsGet [JSValue.str "idA", JSValue.str "Ann", JSValue.num (.val 31)] j =
          jsGet (origRow.map JSValue.str) j) ∧
      jsGet [JSValue.str "idA", JSValue.str "Ann", JSValue.num (.val 31)] 0 =
        jsGet (origRow.map JSValue.str) 0 ∧
      (∀ key fld j,
        (key, fld) ∈ ([("name", ⟨"string", true, some 1⟩), ("age", ⟨"number", true, some 2⟩)] : Schema) →
        lookupJS [("age", JSValue.num (.val 31)), ("__ID", JSValue.str "HACK")] key ≠ .undefined →
        fld.index = some j →
        jsGet [JSValue.str "idA", JSValue.str "Ann", JSValue.num (.val 31)] j =
          lookupJS [("age", JSValue.num (.val 31)), ("__ID", JSValue.str "HACK")] key)) ∧
    jsGet [JSValue.str "idA", JSValue.str "Ann", JSValue.num (.val 31)] 0 = JSValue.str "idA" :=
  ⟨claimC5 [("name", ⟨"string", true, some 1⟩), ("age", ⟨"number", true, some 2⟩)]
      [["__ID", "name", "age"], ["idA", "Ann", "30"], ["idC", "Bob", "40"]]
      [("__ID", JSValue.str "idA")]
      [("age", JSValue.num (.val 31)), ("__ID", JSValue.str "HACK")]
      (by decide) (by decide) 1
      [JSValue.str "idA", JSValue.str "Ann", JSValue.num (.val 31)]
      [("age", JSValue.num (.val 31)), ("__ID", JSValue.str "HACK"), ("name", JSValue.str "Ann")]
      (by decide),
   by decide⟩

/-- Claim C6: update validates patch types before mutating anything — once
the locate scan has selected a row, a present patch field whose runtime type
differs from the declared type makes update throw that field's type-mismatch
error with no remote write, the stored table unchanged; and when every
present patch field carries its declared type, update raises no error at
all. -/
theorem claimC6 (schema : Schema) (data : List (List String)) (query newData : JSRecord)
    (i : ℕ) (row : List String)
    (hloc : locate schema query data = .ok (some (i, row))) :
    ((∃ p ∈ schema, lookupJS newData p.1 ≠ .undefined ∧
        p.2.type ≠ typeofJS (lookupJS newData p.1)) →
      (∃ key fld, (key, fld) ∈ schema ∧ lookupJS newData key ≠ .undefined ∧
        fld.type ≠ typeofJS (lookupJS newData key) ∧
        updateOp schema data query newData =
          .error (key ++ " field should be of type " ++ fld.type)) ∧
      tableAfterUpdate schema data query newData = data) ∧
    ((∀ p ∈ schema, lookupJS newData p.1 ≠ .undefined →
        p.2.type = typeofJS (lookupJS newData p.1)) →
      ∃ res, updateOp schema data query newData = .ok res) := by
  constructor
  · intro hmis
    rcases patchRowGo_mismatch newData schema (row.map JSValue.str) hmis with
      ⟨key, fld, hmem, h1, h2, h3⟩
    have hupd : updateOp schema data query newData =
        .error (key ++ " field should be of type " ++ fld.type) := by
      unfold updateOp
      rw [hloc]
      dsimp only
      unfold patchRow
      rw [h3]
    refine ⟨⟨key, fld, hmem, h1, h2, hupd⟩, ?_⟩
    unfold tableAfterUpdate
    rw [hupd]
  · intro hok
    rcases patchRowGo_ok newData schema (row.map JSValue.str) hok with ⟨out, hout⟩
    refine ⟨(i, out, updateResult out schema newData), ?_⟩
    unfold updateOp
    rw [hloc]
    dsimp only
    unfold patchRow
    rw [hout]

/-- Witness for C6 at a concrete located row: a string patched into the
numeric "age" field fails with its type error and leaves the table
unchanged, while a numeric patch raises no error. -/
theorem claimC6_witness :
    ((∃ key fld,
      (key, fld) ∈ ([("name", ⟨"string", true, some 1⟩), ("age", ⟨"number", true, some 2⟩)] : Schema) ∧
      lookupJS [("age", JSValue.str "oops")] key ≠ .undefined ∧
      fld.type ≠ typeofJS (lookupJS [("age", JSValue.str "oops")] key) ∧
      updateOp [("name", ⟨"string", true, some 1⟩), ("age", ⟨"number", true, some 2⟩)]
          [["__ID", "name", "age"], ["idA", "Ann", "30"]]
          [("__ID", JSValue.str "idA")] [("age", JSValue.str "oops")] =
        .error (key ++ " field should be of type " ++ fld.type)) ∧
      tableAfterUpdate [("name", ⟨"string", true, some 1⟩), ("age", ⟨"number", true, some 2⟩)]
          [["__ID", "name", "age"], ["idA", "Ann", "30"]]
          [("__ID", JSValue.str "idA")] [("age", JSValue.str "oops")] =
        [["__ID", "name", "age"], ["idA", "Ann", "30"]]) ∧
    ∃ res, updateOp [("name", ⟨"string", true, some 1⟩), ("age", ⟨"number", true, some 2⟩)]
        [["__ID", "name", "age"], ["idA", "Ann", "30"]]
        [("__ID", JSValue.str "idA")] [("age", JSValue.num (.val 31))] = .ok res :=
  ⟨(claimC6 [("name", ⟨"string", true, some 1⟩), ("age", ⟨"number", true, some 2⟩)]
      [["__ID", "name", "age"], ["idA", "Ann", "30"]]
      [("__ID", JSValue.str "idA")] [("age", JSValue.str "oops")] 1 ["idA", "Ann", "30"]
      (by decide)).1 (by decide),
   (claimC6 [("name", ⟨"string", true, some 1⟩), ("age", ⟨"number", true, some 2⟩)]
      [["__ID", "name", "age"], ["idA", "Ann", "30"]]
      [("__ID", JSValue.str "idA")] [("age", JSValue.num (.val 31))] 1 ["idA", "Ann", "30"]
      (by decide)).2 (by decide)⟩

/-- The find scan, absent matcher errors, keeps exactly the non-tombstone
rows surviving the query, decoded in their original order. -/
theorem findRowsGo_eq (schema : Schema) (query : JSRecord) :
    ∀ rows : List (List String),
      (∀ row ∈ rows, ∃ b, rowFilter schema row query = .ok b) →
      findRowsGo schema query rows =
        .ok ((rows.filter (keptB schema query)).map (decodeRow schema)) := by
  intro rows
  induction rows with
  | nil => intro _; rfl
  | cons row rest ih =>
    intro herr
    have hrest := fun r hr => herr r (List.mem_cons_of_mem _ hr)
    rcases herr row (List.mem_cons_self _ _) with ⟨b, hb⟩
    rw [findRowsGo, hb]
    cases b with
    | true =>
      dsimp only
      have hk : keptB schema query row = false := by
        unfold keptB rawMatchB
        rw [hb]
        rfl
      rw [List.filter_cons, if_neg (by rw [hk]; simp)]
      exact ih hrest
    | false =>
      dsimp only
      by_cases ht : isTombstone row
      · rw [if_pos ht]
        have hk : keptB schema query row = false := by
          unfold keptB rawMatchB
          rw [hb, ht]
          rfl
        rw [List.filter_cons, if_neg (by rw [hk]; simp)]
        exact ih hrest
      · rw [if_neg ht]
        have ht2 : isTombstone row = false := by simpa using ht
        have hk : keptB schema query row = true := by
          unfold keptB rawMatchB
          rw [hb, ht2]
          rfl
        rw [ih hrest]
        dsimp only
        rw [List.filter_cons, if_pos hk, List.map_cons]

/-- The findOne scan, absent matcher errors, returns the decode of the first
kept row. -/
theorem findOneGo_eq (schema : Schema) (query : JSRecord) :
    ∀ rows : List (List String),
      (∀ row ∈ rows, ∃ b, rowFilter schema row query = .ok b) →
      findOneGo schema query rows =
        .ok (((rows.filter (keptB schema query)).head?).map (decodeRow schema)) := by
  intro rows
  induction rows with
  | nil => intro _; rfl
  | cons row rest ih =>
    intro herr
    have hrest := fun r hr => herr r (List.mem_cons_of_mem _ hr)
    rcases herr row (List.mem_cons_self _ _) with ⟨b, hb⟩
    rw [findOneGo, hb]
    cases b with
    | true =>
      dsimp only
      have hk : keptB schema query row = false := by
        unfold keptB rawMatchB
        rw [hb]
        rfl
      rw [List.filter_cons, if_neg (by rw [hk]; simp)]
      exact ih hrest
    | false =>
      dsimp only
      by_cases ht : isTombstone row
      · rw [if_pos ht]
        have hk : keptB schema query row = false := by
          unfold keptB rawMatchB
          rw [hb, ht]
          rfl
        rw [List.filter_cons, if_neg (by rw [hk]; simp)]
        exact ih hrest
      · rw [if_neg ht]
        have ht2 : isTombstone row = false := by simpa using ht
        have hk : keptB schema query row = true := by
          unfold keptB rawMatchB
          rw [hb, ht2]
          rfl
        rw [List.filter_cons, if_pos hk, List.head?_cons]
        rfl

/-- The locate scan, absent matcher errors, selects the first row — counted
from the given start index — that survives the raw matcher, tombstones
included. -/
theorem locateGo_eq (schema : Schema) (query : JSRecord) :
    ∀ (rows : List (List String)) (i : ℕ),
      (∀ row ∈ rows, ∃ b, rowFilter schema row query = .ok b) →
      locateGo schema query i rows =
        .ok ((List.enumFrom i rows).find? (fun p => rawMatchB schema query p.2)) := by
  intro rows
  induction rows with
  | nil => intro i _; rfl
  | cons row rest ih =>
    intro i herr
    rcases herr row (List.mem_cons_self _ _) with ⟨b, hb⟩
    rw [locateGo, hb]
    cases b with
    | true =>
      rw [ih (i + 1) (fun r hr => herr r (List.mem_cons_of_mem _ hr))]
      rw [List.enumFrom, List.find?_cons_of_neg _ (by simp [rawMatchB, hb])]
    | false =>
      rw [List.enumFrom, List.find?_cons_of_pos _ (by simp [rawMatchB, hb])]

/-- A successful update located its target: the written row index is the one
the locate scan selected. -/
theorem updateOp_ok_locate (schema : Schema) (data : List (List String))
    (query newData : JSRecord) (i : ℕ) (nr : List JSValue) (rec : JSRecord)
    (h : updateOp schema data query newData = .ok (i, nr, rec)) :
    ∃ row, locate schema query data = .ok (some (i, row)) := by
  unfold updateOp at h
  cases hl : locate schema query data with
  | error e => rw [hl] at h; cases h
  | ok o =>
    rw [hl] at h
    cases o with
    | none =>
      dsimp only at h
      cases h
    | some pr =>
      obtain ⟨i0, row⟩ := pr
      dsimp only at h
      cases hp : patchRow schema (row.map JSValue.str) newData with
      | error e => rw [hp] at h; cases h
      | ok nr2 =>
        rw [hp] at h
        dsimp only at h
        injection h with h1
        injection h1 with h2 h3
        subst h2
        exact ⟨row, rfl⟩

/-- A successful delete located its target: the blanked row index is the one
the locate scan selected. -/
theorem deleteOp_ok_locate (schema : Schema) (data : List (List String))
    (query : JSRecord) (i : ℕ) (wr : List JSValue)
    (h : deleteOp schema data query = .ok (i, wr)) :
    ∃ row, locate schema query data = .ok (some (i, row)) := by
  unfold deleteOp at h
  cases hl : locate schema query data with
  | error e => rw [hl] at h; cases h
  | ok o =>
    rw [hl] at h
    cases o with
    | none =>
      dsimp only at h
      cases h
    | some pr =>
      obtain ⟨i0, row⟩ := pr
      dsimp only at h
      injection h with h1
      injection h1 with h2 h3
      subst h2
      exact ⟨row, rfl⟩

end SheetsORM

namespace SheetsORM

/-- Counterexample to claim C7 as stated: under the empty query on a table
whose first data row is a tombstone, two rows satisfy the query in the sense
of the specified matcher (which never matches a tombstone), the lowest being
row 2; findOne indeed returns row 2's record, but update and delete act on
row 1, the tombstone — not on the satisfying row with the lowest row
number. -/
theorem claimC7_counterexample :
    ((([["__ID", "name"], ["", ""], ["idB", "Ann"], ["idC", "Ann"]] :
        List (List String)).drop 1).filter
        (keptB [("name", ⟨"string", true, some 1⟩)] [])).length = 2 ∧
    (List.enumFrom 1 (([["__ID", "name"], ["", ""], ["idB", "Ann"], ["idC", "Ann"]] :
        List (List String)).drop 1)).find?
        (fun p => keptB [("name", ⟨"string", true, some 1⟩)] [] p.2) =
      some (2, ["idB", "Ann"]) ∧
    convertDataToJSONWithFiltersOne [("name", ⟨"string", true, some 1⟩)]
        [["__ID", "name"], ["", ""], ["idB", "Ann"], ["idC", "Ann"]] [] =
      .ok (some [("__ID", .str "idB"), ("name", .str "Ann")]) ∧
    locate [("name", ⟨"string", true, some 1⟩)] []
        [["__ID", "name"], ["", ""], ["idB", "Ann"], ["idC", "Ann"]] =
      .ok (some (1, ["", ""])) ∧
    deleteOp [("name", ⟨"string", true, some 1⟩)]
        [["__ID", "name"], ["", ""], ["idB", "Ann"], ["idC", "Ann"]] [] =
      .ok (1, [.str "", .str ""]) ∧
    (1 : ℕ) ≠ 2 :=
  ⟨by decide, by decide, by decide, by decide, by decide, by decide⟩

/-- Amended claim C7: absent matcher errors, find returns the decodes of all
non-tombstone matching rows in original row order and findOne the first of
them; update and delete act on the row with the lowest row number among the
rows matching the raw query, tombstones included — which is the lowest
satisfying row whenever no tombstone matches the query. -/
theorem claimC7_amended (schema : Schema) (data : List (List String)) (query : JSRecord)
    (herr : ∀ row ∈ data.drop 1, ∃ b, rowFilter schema row query = .ok b) :
    convertDataToJSONWithFilters schema data query =
      .ok (((data.drop 1).filter (keptB schema query)).map (decodeRow schema)) ∧
    convertDataToJSONWithFiltersOne schema data query =
      .ok ((((data.drop 1).filter (keptB schema query)).head?).map (decodeRow schema)) ∧
    locate schema query data =
      .ok ((List.enumFrom 1 (data.drop 1)).find? (fun p => rawMatchB schema query p.2)) ∧
    (∀ newData i nr rec, updateOp schema data query newData = .ok (i, nr, rec) →
      ∃ row, (List.enumFrom 1 (data.drop 1)).find?
        (fun p => rawMatchB schema query p.2) = some (i, row)) ∧
    (∀ i wr, deleteOp schema data query = .ok (i, wr) →
      ∃ row, (List.enumFrom 1 (data.drop 1)).find?
        (fun p => rawMatchB schema query p.2) = some (i, row)) := by
  have hloc : locate schema query data =
      .ok ((List.enumFrom 1 (data.drop 1)).find? (fun p => rawMatchB schema query p.2)) :=
    locateGo_eq schema query (data.drop 1) 1 herr
  refine ⟨findRowsGo_eq schema query (data.drop 1) herr,
    findOneGo_eq schema query (data.drop 1) herr, hloc, ?_, ?_⟩
  · intro newData i nr rec h
    rcases updateOp_ok_locate schema data query newData i nr rec h with ⟨row, hl⟩
    rw [hloc] at hl
    injection hl with hl2
    exact ⟨row, hl2⟩
  · intro i wr h
    rcases deleteOp_ok_locate schema data query i wr h with ⟨row, hl⟩
    rw [hloc] at hl
    injection hl with hl2
    exact ⟨row, hl2⟩

/-- Witness for the amended C7 on a concrete table: find lists the two
non-tombstone "Ann" rows in row order and findOne takes the first of them. -/
theorem claimC7_witness :
    (convertDataToJSONWithFilters
        [("name", ⟨"string", true, some 1⟩), ("age", ⟨"number", true, some 2⟩)]
        [["__ID", "name", "age"], ["idA", "Ann", "30"], ["", "", ""], ["idC", "Ann", "40"]]
        [("name", JSValue.str "Ann")] =
      .ok (((([["__ID", "name", "age"], ["idA", "Ann", "30"], ["", "", ""],
            ["idC", "Ann", "40"]] : List (List String)).drop 1).filter
          (keptB [("name", ⟨"string", true, some 1⟩), ("age", ⟨"number", true, some 2⟩)]
            [("name", JSValue.str "Ann")])).map
        (decodeRow [("name", ⟨"string", true, some 1⟩), ("age", ⟨"number", true, some 2⟩)]))) ∧
    convertDataToJSONWithFilters
        [("name", ⟨"string", true, some 1⟩), ("age", ⟨"number", true, some 2⟩)]
        [["__ID", "name", "age"], ["idA", "Ann", "30"], ["", "", ""], ["idC", "Ann", "40"]]
        [("name", JSValue.str "Ann")] =
      .ok [[("__ID", .str "idA"), ("name", .str "Ann"), ("age", .num (.val 30))],
           [("__ID", .str "idC"), ("name", .str "Ann"), ("age", .num (.val 40))]] :=
  ⟨(claimC7_amended
      [("name", ⟨"string", true, some 1⟩), ("age", ⟨"number", true, some 2⟩)]
      [["__ID", "name", "age"], ["idA", "Ann", "30"], ["", "", ""], ["idC", "Ann", "40"]]
      [("name", JSValue.str "Ann")] (by decide)).1,
   by decide⟩

end SheetsORM

namespace SheetsORM

example : parseBooleanNumber "TRUE" = .boolean true := by decide
example : parseBooleanNumber " " = .num (.val 0) := by decide
example : parseBooleanNumber "" = .str "" := by decide
example : parseBooleanNumber "30" = .num (.val 30) := by decide
example : parseBooleanNumber "Ann" = .str "Ann" := by decide
example : parseBooleanNumber "-2.5" = .num (.val (mkRat (-5) 2)) := by decide
example : jsStrToNumber "0x10" = .val 16 := by decide
example : jsStrToNumber "-Infinity" = .inf false := by decide
example : jsStrToNumber "1e3" = .val 1000 := by decide

end SheetsORM
